import Mathlib

/-!
Verification of the concurrent request execution core of the
`openai_compatible_examples` repository: the retry/backoff executors in
`concurrent_inference/`, the semaphore-bounded dispatcher pattern in their
`main` functions, and the `ApiKeyManager` credential cache in
`utils/auth_helpers.py`.  Each definition is a shallow embedding of the
corresponding Python function; theorems settle the frozen specification
claims against these embeddings.
-/

namespace OpenaiExamples

/-! ### Error taxonomy

Error classes raised by the OpenAI SDK client, as distinguished by the
`except` clauses of `send_openai_request_with_retry` in
`openai_sdk_concurrent_normal_backoff.py` and by `should_retry_openai` in
`openai_sdk_concurrent_normal_tenacity.py`: `RateLimitError` (HTTP 429),
`APITimeoutError`, an `APIError` carrying an HTTP `status_code`, and any
other exception. -/

inductive OpenaiError where
  | rateLimitError : OpenaiError
  | apiTimeoutError : OpenaiError
  | apiStatusError : Nat → OpenaiError
  | otherError : String → OpenaiError
  deriving DecidableEq, Repr

/-- Exception classes distinguished by `should_retry_aiohttp` in
`requests_concurrent_normal_tenacity.py`: `asyncio.TimeoutError`,
`aiohttp.ClientResponseError` carrying an HTTP status,
`aiohttp.ClientConnectionError`, and any other exception. -/
inductive AioError where
  | timeoutError : AioError
  | responseError : Nat → AioError
  | connectionError : AioError
  | otherError : String → AioError
  deriving DecidableEq, Repr

/-! ### Retry settings (module constants of the backoff scripts) -/

def MAX_RETRIES : Nat := 5
def INITIAL_BACKOFF_S : Nat := 1
def MAX_BACKOFF_S : Nat := 16
def MAX_ATTEMPTS : Nat := 5

/-- `wait_time = min(INITIAL_BACKOFF_S * (2 ** attempt), MAX_BACKOFF_S)`
(line 49 of `openai_sdk_concurrent_normal_backoff.py`, line 47 of
`requests_concurrent_normal_backoff.py`; `attempt` is 0-based). -/
def wait_time (attempt : Nat) : Nat :=
  min (INITIAL_BACKOFF_S * 2 ^ attempt) MAX_BACKOFF_S

/-- `actual_wait = max(0, wait_time + jitter)` where
`jitter = random.uniform(-1, 1)` (lines 50-51 resp. 49-50 of the backoff
scripts).  The jitter draw is modelled as a rational parameter. -/
def actual_wait (attempt : Nat) (jitter : ℚ) : ℚ :=
  max 0 ((wait_time attempt : ℚ) + jitter)

/-! ### The manual backoff executor

`send_openai_request_with_retry` (`openai_sdk_concurrent_normal_backoff.py`
lines 38-88).  The remote endpoint is modelled as a function from the
0-based attempt number to either a successful response body or a raised
error.  The trace records the Python return value (`response` on success,
`None` after the loop ends) together with the observable side effects the
claims speak about: how many attempts (endpoint calls) were performed, how
many times `get_api_key_async` was called, and how many backoff sleeps
were awaited. -/

structure ExecTrace where
  result : Option String
  attempts : Nat
  fetches : Nat
  sleeps : Nat
  deriving DecidableEq, Repr

/-- One iteration of the `for attempt in range(MAX_RETRIES)` loop, with
`fuel` the number of loop iterations remaining.  Inside the loop the key is
refreshed only when `attempt > 0` (line 55); every `except` clause falls
through to `await asyncio.sleep(actual_wait)` (line 85), so every failed
attempt — whatever the error class — is followed by one sleep and another
iteration. -/
def retryLoopAux (endpoint : Nat → Except OpenaiError String) :
    Nat → Nat → ExecTrace
  | _, 0 => ⟨none, 0, 0, 0⟩
  | attempt, fuel + 1 =>
    let f : Nat := if 0 < attempt then 1 else 0
    match endpoint attempt with
    | .ok r => ⟨some r, 1, f, 0⟩
    | .error _ =>
      let rest := retryLoopAux endpoint (attempt + 1) fuel
      ⟨rest.result, rest.attempts + 1, rest.fetches + f, rest.sleeps + 1⟩

/-- The whole executor: one initial key fetch when the client is built
(line 45), then the retry loop; `return None` after `MAX_RETRIES` failed
attempts (line 88). -/
def send_openai_request_with_retry
    (endpoint : Nat → Except OpenaiError String) : ExecTrace :=
  let t := retryLoopAux endpoint 0 MAX_RETRIES
  ⟨t.result, t.attempts, t.fetches + 1, t.sleeps⟩

/-! ### The tenacity retry predicates -/

/-- `should_retry_openai` (`openai_sdk_concurrent_normal_tenacity.py`
lines 41-55): retry on `RateLimitError`, on `APITimeoutError`, and on an
`APIError` whose `status_code >= 500`; everything else is fatal. -/
def should_retry_openai : OpenaiError → Bool
  | .rateLimitError => true
  | .apiTimeoutError => true
  | .apiStatusError s => decide (500 ≤ s)
  | .otherError _ => false

/-- `should_retry_aiohttp` (`requests_concurrent_normal_tenacity.py`
lines 40-55): retry on `asyncio.TimeoutError`, on a
`ClientResponseError` with status 429 or `>= 500`, and on a
`ClientConnectionError`; everything else is fatal. -/
def should_retry_aiohttp : AioError → Bool
  | .timeoutError => true
  | .responseError s => s == 429 || decide (500 ≤ s)
  | .connectionError => true
  | .otherError _ => false

/-! ### The tenacity-driven executor (SDK variant)

`send_openai_request_with_tenacity` is decorated with
`stop=stop_after_attempt(MAX_ATTEMPTS)`, `retry=retry_if_exception(should_retry_openai)`
and `reraise=True`: each attempt calls the endpoint; a raised error is
retried (after a backoff sleep) only when the predicate accepts it and the
attempt budget is not exhausted, otherwise the error is reraised. -/

instance : DecidableEq (Except OpenaiError String) := fun a b =>
  match a, b with
  | .ok x, .ok y => decidable_of_iff (x = y) (by simp)
  | .error x, .error y => decidable_of_iff (x = y) (by simp)
  | .ok _, .error _ => isFalse (by simp)
  | .error _, .ok _ => isFalse (by simp)

structure TenacityTrace where
  result : Except OpenaiError String
  attempts : Nat
  sleeps : Nat
  deriving DecidableEq, Repr

/-- `fuel` is the number of attempts still allowed (initially
`MAX_ATTEMPTS`).  The `fuel = 0` base case is unreachable from a positive
budget and is given a dummy value. -/
def tenacityLoopAux (endpoint : Nat → Except OpenaiError String) :
    Nat → Nat → TenacityTrace
  | _, 0 => ⟨.error (.otherError "no attempt budget"), 0, 0⟩
  | attempt, fuel + 1 =>
    match endpoint attempt with
    | .ok r => ⟨.ok r, 1, 0⟩
    | .error e =>
      if should_retry_openai e ∧ 0 < fuel then
        let rest := tenacityLoopAux endpoint (attempt + 1) fuel
        ⟨rest.result, rest.attempts + 1, rest.sleeps + 1⟩
      else ⟨.error e, 1, 0⟩

def send_openai_request_with_tenacity
    (endpoint : Nat → Except OpenaiError String) : TenacityTrace :=
  tenacityLoopAux endpoint 0 MAX_ATTEMPTS

/-- `run_openai_request_wrapper` (`openai_sdk_concurrent_normal_tenacity.py`
lines 82-92): exactly one `get_api_key_async` call before invoking the
tenacity-decorated function — tenacity re-invokes only the decorated
function, which never refetches the key, so retry attempts reuse the key
fetched before attempt 1.  A reraised final error is caught (here and in
`run_with_semaphore`) and collapsed to `None`. -/
def run_openai_request_wrapper
    (endpoint : Nat → Except OpenaiError String) : ExecTrace :=
  let t := send_openai_request_with_tenacity endpoint
  ⟨t.result.toOption, t.attempts, 1, t.sleeps⟩

/-! ### The semaphore-bounded dispatcher

`main` in `openai_sdk_concurrent_normal_backoff.py` (lines 98-108) creates
`semaphore = asyncio.Semaphore(3)` and wraps every task coroutine in
`run_with_semaphore`, whose body is `async with semaphore: return await coro`.
The Python `async with` releases the permit on every exit path — normal
return, exception, and cancellation alike.  The batch is modelled as a
cooperative transition system: a task is `pending` until it acquires a
permit, then `running w` with `w` suspension points left (the request and
backoff sleeps), and moves to `done ok` — covering success (`ok = true`)
and failure or cancellation (`ok = false`) at any suspension point — while
returning its permit.  `avail` is the semaphore's available permit count. -/

inductive TaskPhase where
  | pending : TaskPhase
  | running : Nat → TaskPhase
  | done : Bool → TaskPhase
  deriving DecidableEq, Repr

structure SemState where
  avail : Nat
  tasks : List TaskPhase
  deriving DecidableEq, Repr

def isRunning : TaskPhase → Bool
  | .running _ => true
  | _ => false

def isDoneTask : TaskPhase → Bool
  | .done _ => true
  | _ => false

/-- Number of tasks currently inside the semaphore-guarded section. -/
def countRunning (ts : List TaskPhase) : Nat :=
  ts.countP isRunning

/-- The interleaving steps of the batch.  `acquire` fires only when a
permit is available (`avail = a + 1 > 0`); `finish` returns the permit
unconditionally, at any remaining-work point `w` and with any result `ok`,
modelling the release-on-every-exit-path behaviour of `async with`. -/
inductive SemStep : SemState → SemState → Prop
  | acquire (a : Nat) (l r : List TaskPhase) (w : Nat) :
      SemStep ⟨a + 1, l ++ .pending :: r⟩ ⟨a, l ++ .running w :: r⟩
  | progress (a : Nat) (l r : List TaskPhase) (w : Nat) :
      SemStep ⟨a, l ++ .running (w + 1) :: r⟩ ⟨a, l ++ .running w :: r⟩
  | finish (a : Nat) (l r : List TaskPhase) (w : Nat) (ok : Bool) :
      SemStep ⟨a, l ++ .running w :: r⟩ ⟨a + 1, l ++ .done ok :: r⟩

/-- Initial batch state: a fresh semaphore of capacity `K` and `n` tasks,
all scheduled but none yet past the semaphore. -/
def initSem (K n : Nat) : SemState :=
  ⟨K, List.replicate n .pending⟩

def AllTasksDone (ts : List TaskPhase) : Prop :=
  ∀ t ∈ ts, isDoneTask t = true

/-! ### Order-preserving result collection

`results = await asyncio.gather(*tasks)` (line 108 of
`openai_sdk_concurrent_normal_backoff.py`, line 103 of
`openai_sdk_concurrent_advanced.py`).  `gather` stores each task's result
in the slot of that task's position in the argument list as the tasks
complete, in whatever order completion happens; the completion order is
modelled as a list `σ` of task indices, and the slot table as a function
`Nat → Option α` (`none` = not yet completed). -/

def gatherStore {α : Type} (f : Nat → α) :
    List Nat → (Nat → Option α) → Nat → Option α
  | [], g => g
  | i :: rest, g =>
    gatherStore f rest (fun j => if j = i then some (f i) else g j)

/-- The batch result list: the `n` slots read off in input order once all
completions in `σ` have been recorded.  `f i` is the outcome of task `i`
(tasks never raise: the executor converts every terminal failure into a
`None` return value, so an outcome is opaque data here). -/
def run_batch {α : Type} (f : Nat → α) (n : Nat) (σ : List Nat) :
    List (Option α) :=
  (List.range n).map (gatherStore f σ (fun _ => none))

/-! ### Aggregate success accounting

After `gather` returns, both cited `main` functions compute
`successful_results = [r for r in results if r is not None]`. -/

def successfulCount {α : Type} (results : List (Option α)) : Nat :=
  (results.filter fun r => r.isSome).length

/-- `main` of `openai_sdk_concurrent_normal_backoff.py` lines 111-117:
`if len(successful_results) != len(all_messages): raise Exception(...)`.
`results` has one entry per input message (gather), so the comparison is
against `results.length`. -/
def mainAggregateSdk {α : Type} (results : List (Option α)) :
    Except String Unit :=
  if successfulCount results ≠ results.length then
    .error "Failed to complete all requests."
  else .ok ()

/-- `main` of `requests_concurrent_normal_backoff.py` lines 114-118:
computes `successful_results`, prints the counts, and returns normally —
no exception is raised on a partial batch. -/
def mainAggregateRequests {α : Type} (_results : List (Option α)) :
    Except String Unit :=
  .ok ()

/-! ### The credential cache: `ApiKeyManager` (`utils/auth_helpers.py`)

Mutable fields `_api_key` and `_last_fetch_time`; `_expiry_duration` and
the current time are modelled as natural-number parameters `d` and `now`.
The injected credential provider `_get_key_from_env` catches every
exception internally and returns either a token or `None`, so it is
modelled as an `Option String` value. -/

structure KeyState where
  apiKey : Option String
  lastFetchTime : Option Nat
  deriving DecidableEq, Repr

/-- `_is_expired` (lines 49-53): `True` when `_api_key is None` or
`_last_fetch_time is None`, otherwise `now > _last_fetch_time +
_expiry_duration`. -/
def is_expired (d now : Nat) (s : KeyState) : Bool :=
  match s.apiKey, s.lastFetchTime with
  | none, _ => true
  | _, none => true
  | some _, some f => decide (f + d < now)

/-- `get_key_sync` (lines 55-75): fast check; on (re-checked) expiry invoke
the provider, updating `_api_key` and `_last_fetch_time` only when the
fetch succeeded; finally return `self._api_key`. -/
def get_key_sync (provider : Option String) (d now : Nat) (s : KeyState) :
    Option String × KeyState :=
  if is_expired d now s = false then (s.apiKey, s)
  else if is_expired d now s then
    match provider with
    | some k => (some k, ⟨some k, some now⟩)
    | none => (s.apiKey, s)
  else (s.apiKey, s)

/-- `get_key_async` (lines 77-101), single-caller sequential behaviour:
identical branch structure (the lock only matters under concurrency, which
`CacheStep` below models). -/
def get_key_async (provider : Option String) (d now : Nat) (s : KeyState) :
    Option String × KeyState :=
  if is_expired d now s = false then (s.apiKey, s)
  else if is_expired d now s then
    match provider with
    | some k => (some k, ⟨some k, some now⟩)
    | none => (s.apiKey, s)
  else (s.apiKey, s)

/-! ### Concurrent callers of `get_key_async`

Each concurrent caller of `get_key_async` walks these phases:

* `start`    — about to run the lock-free fast check (line 80);
* `waiting`  — observed "stale", waiting on `async with self._lock` (line 84);
* `critical` — holds the lock, about to run the double check and, if still
  stale, the refresh (lines 86-96; `_get_key_from_env` is a synchronous
  `subprocess.run` call, so check + provider call + field update contain no
  suspension point and form one atomic step);
* `finishing`— critical section done, about to leave the `async with`
  block and return `self._api_key` (line 101);
* `done r`   — returned with value `r`.

The shared state carries the manager fields, whether the lock is held, and
how many times the provider has been invoked. -/

inductive CallerPhase where
  | start : CallerPhase
  | waiting : CallerPhase
  | critical : CallerPhase
  | finishing : CallerPhase
  | done : Option String → CallerPhase
  deriving DecidableEq, Repr

structure CacheState where
  apiKey : Option String
  lastFetchTime : Option Nat
  lockHeld : Bool
  providerCalls : Nat
  callers : List CallerPhase
  deriving DecidableEq, Repr

def keyOf (s : CacheState) : KeyState := ⟨s.apiKey, s.lastFetchTime⟩

/-- Interleaving semantics of any number of concurrent `get_key_async`
calls against one `ApiKeyManager`, with provider result `p`, expiry window
`d` and (fixed) current time `now`. -/
inductive CacheStep (p : Option String) (d now : Nat) :
    CacheState → CacheState → Prop
  | fastFresh (key : Option String) (lf : Option Nat) (lock : Bool)
      (calls : Nat) (l r : List CallerPhase) :
      is_expired d now ⟨key, lf⟩ = false →
      CacheStep p d now ⟨key, lf, lock, calls, l ++ .start :: r⟩
        ⟨key, lf, lock, calls, l ++ .done key :: r⟩
  | fastStale (key : Option String) (lf : Option Nat) (lock : Bool)
      (calls : Nat) (l r : List CallerPhase) :
      is_expired d now ⟨key, lf⟩ = true →
      CacheStep p d now ⟨key, lf, lock, calls, l ++ .start :: r⟩
        ⟨key, lf, lock, calls, l ++ .waiting :: r⟩
  | lockAcquire (key : Option String) (lf : Option Nat)
      (calls : Nat) (l r : List CallerPhase) :
      CacheStep p d now ⟨key, lf, false, calls, l ++ .waiting :: r⟩
        ⟨key, lf, true, calls, l ++ .critical :: r⟩
  | refresh (key : Option String) (lf : Option Nat)
      (calls : Nat) (l r : List CallerPhase) :
      is_expired d now ⟨key, lf⟩ = true →
      CacheStep p d now ⟨key, lf, true, calls, l ++ .critical :: r⟩
        ⟨(match p with | some k => some k | none => key),
         (match p with | some _ => some now | none => lf),
         true, calls + 1, l ++ .finishing :: r⟩
  | skipRefresh (key : Option String) (lf : Option Nat)
      (calls : Nat) (l r : List CallerPhase) :
      is_expired d now ⟨key, lf⟩ = false →
      CacheStep p d now ⟨key, lf, true, calls, l ++ .critical :: r⟩
        ⟨key, lf, true, calls, l ++ .finishing :: r⟩
  | release (key : Option String) (lf : Option Nat)
      (calls : Nat) (l r : List CallerPhase) :
      CacheStep p d now ⟨key, lf, true, calls, l ++ .finishing :: r⟩
        ⟨key, lf, false, calls, l ++ .done key :: r⟩

/-- Initial state of the de-duplication scenario: `n` simultaneous
callers, lock free, provider not yet invoked, cached fields `key0`/`lf0` —
`none`/`none` for a credential never obtained, or a stale
`some k0`/`some f0` whose age exceeds the expiry window. -/
def initCacheStale (key0 : Option String) (lf0 : Option Nat) (n : Nat) :
    CacheState :=
  ⟨key0, lf0, false, 0, List.replicate n .start⟩

/-- Initial state with a cached credential `k0` fetched at time `f0`. -/
def initCacheCached (k0 : String) (f0 : Nat) (n : Nat) : CacheState :=
  ⟨some k0, some f0, false, 0, List.replicate n .start⟩

def isDoneCaller : CallerPhase → Bool
  | .done _ => true
  | _ => false

def AllCallersDone (s : CacheState) : Prop :=
  ∀ c ∈ s.callers, isDoneCaller c = true

/-- Whether a caller is inside the lock-protected region. -/
def inLock : CallerPhase → Bool
  | .critical => true
  | .finishing => true
  | _ => false

/-- Number of callers inside the lock-protected region. -/
def lockHolders (cs : List CallerPhase) : Nat :=
  cs.countP inLock

/-- The simulated endpoint of the spec's retry-classification scenario:
429 on the first attempt, success afterwards. -/
def ep429then200 : Nat → Except OpenaiError String :=
  fun n => if n = 0 then .error .rateLimitError else .ok "ok"

/-! ## Helper lemmas -/

/-- If every attempt fails, the backoff loop consumes all its fuel: the
return value is `None` and one attempt is made per fuel unit. -/
theorem retryLoopAux_all_fail (ep : Nat → Except OpenaiError String)
    (h : ∀ n, ∃ e, ep n = .error e) :
    ∀ fuel a, (retryLoopAux ep a fuel).result = none ∧
      (retryLoopAux ep a fuel).attempts = fuel := by
  intro fuel
  induction fuel with
  | zero => intro a; simp [retryLoopAux]
  | succ f ih =>
    intro a
    obtain ⟨e, he⟩ := h a
    simpa [retryLoopAux, he] using (ih (a + 1))

/-- From any attempt index `≥ 1` on, the backoff loop performs exactly one
key fetch per attempt. -/
theorem retryLoopAux_fetches_pos (ep : Nat → Except OpenaiError String) :
    ∀ fuel a, 0 < a → (retryLoopAux ep a fuel).fetches =
      (retryLoopAux ep a fuel).attempts := by
  intro fuel
  induction fuel with
  | zero => intro a _; simp [retryLoopAux]
  | succ f ih =>
    intro a ha
    have := ih (a + 1) (Nat.succ_pos a)
    cases hep : ep a
    · simp [retryLoopAux, hep, ha]
      omega
    · simp [retryLoopAux, hep, ha]

/-- Starting from attempt `0`, in-loop fetches are one fewer than
attempts (the loop does not refetch before attempt 1). -/
theorem retryLoopAux_fetches_zero (ep : Nat → Except OpenaiError String)
    (fuel : Nat) :
    (retryLoopAux ep 0 (fuel + 1)).fetches + 1 =
      (retryLoopAux ep 0 (fuel + 1)).attempts := by
  have := retryLoopAux_fetches_pos ep fuel 1 Nat.one_pos
  cases hep : ep 0
  · simp [retryLoopAux, hep]
    omega
  · simp [retryLoopAux, hep]

/-- A non-retryable error on the current attempt stops the tenacity loop
at once, reraising that error. -/
theorem tenacityLoopAux_fatal (ep : Nat → Except OpenaiError String)
    (attempt fuel : Nat) (e : OpenaiError)
    (hep : ep attempt = .error e) (hr : should_retry_openai e = false) :
    tenacityLoopAux ep attempt (fuel + 1) = ⟨.error e, 1, 0⟩ := by
  simp [tenacityLoopAux, hep, hr]

/-- One retrying step of the tenacity loop: a retryable error with budget
remaining recurses on the next attempt after one backoff sleep. -/
theorem tenacityLoopAux_retry_step (ep : Nat → Except OpenaiError String)
    (attempt fuel : Nat) (e : OpenaiError)
    (hep : ep attempt = .error e) (hr : should_retry_openai e = true)
    (hf : 0 < fuel) :
    tenacityLoopAux ep attempt (fuel + 1) =
      ⟨(tenacityLoopAux ep (attempt + 1) fuel).result,
       (tenacityLoopAux ep (attempt + 1) fuel).attempts + 1,
       (tenacityLoopAux ep (attempt + 1) fuel).sleeps + 1⟩ := by
  simp [tenacityLoopAux, hep, hr, hf]

/-- A constantly-failing endpoint with a retryable error drives the
tenacity loop through its whole budget, reraising the last error. -/
theorem tenacityLoopAux_const_retryable (e : OpenaiError)
    (he : should_retry_openai e = true) :
    ∀ fuel a, tenacityLoopAux (fun _ => .error e) a (fuel + 1) =
      ⟨.error e, fuel + 1, fuel⟩ := by
  intro fuel
  induction fuel with
  | zero => intro a; simp [tenacityLoopAux]
  | succ f ih =>
    intro a
    rw [tenacityLoopAux_retry_step _ a (f + 1) e rfl he (Nat.succ_pos f),
      ih (a + 1)]

/-! ## Claim theorems -/

/-- C1, counterexample: the claim that every executed task's retry loop
fails immediately — exactly one attempt, no backoff sleep — on a client
error (4xx other than 429) is false for the manual-backoff executor
`send_openai_request_with_retry`: its `except APIError` clause retries
every status code, so an endpoint that always answers 404 is retried for
the full budget (5 attempts, 5 sleeps), not failed after 1 attempt. -/
theorem retry_classification_c1_counterexample :
    ¬ (∀ (ep : Nat → Except OpenaiError String) (s : Nat),
        400 ≤ s → s < 500 → s ≠ 429 →
        (∀ m, ep m = .error (.apiStatusError s)) →
        (send_openai_request_with_retry ep).attempts = 1 ∧
        (send_openai_request_with_retry ep).sleeps = 0) := by
  intro h
  have h404 := (h (fun _ => .error (.apiStatusError 404)) 404
    (by norm_num) (by norm_num) (by norm_num) (fun _ => rfl)).1
  exact absurd h404 (by decide)

/-- C1, amended: the tenacity retry predicates accept exactly the
transient error classes — `should_retry_openai`: 429, timeout, 5xx;
`should_retry_aiohttp`: timeout, connection failure, 429, 5xx — and the
tenacity executor fails a client-error task after exactly one attempt with
no sleep, reraising that error, while succeeding after exactly 2 attempts
on a 429-then-200 endpoint; the manual-backoff executor, in contrast,
retries every error class for its whole 5-attempt budget. -/
theorem retry_classification_c1 :
    (∀ e, should_retry_openai e = true ↔
        e = .rateLimitError ∨ e = .apiTimeoutError ∨
        ∃ s, 500 ≤ s ∧ e = .apiStatusError s)
  ∧ (∀ e, should_retry_aiohttp e = true ↔
        e = .timeoutError ∨ e = .connectionError ∨
        ∃ s, (s = 429 ∨ 500 ≤ s) ∧ e = .responseError s)
  ∧ (∀ s : Nat, 400 ≤ s → s < 500 → s ≠ 429 →
        send_openai_request_with_tenacity
          (fun _ => .error (.apiStatusError s)) =
          ⟨.error (.apiStatusError s), 1, 0⟩)
  ∧ (send_openai_request_with_tenacity ep429then200 =
      ⟨.ok "ok", 2, 1⟩)
  ∧ (∀ e, (send_openai_request_with_retry (fun _ => .error e)).attempts =
        MAX_RETRIES) := by
  refine ⟨?_, ?_, ?_, ?_, ?_⟩
  · intro e
    cases e with
    | rateLimitError => simp [should_retry_openai]
    | apiTimeoutError => simp [should_retry_openai]
    | apiStatusError s => simp [should_retry_openai]
    | otherError m => simp [should_retry_openai]
  · intro e
    cases e with
    | timeoutError => simp [should_retry_aiohttp]
    | responseError s => simp [should_retry_aiohttp]
    | connectionError => simp [should_retry_aiohttp]
    | otherError m => simp [should_retry_aiohttp]
  · intro s h4 h5 h9
    have hr : should_retry_openai (.apiStatusError s) = false := by
      simp [should_retry_openai]
      omega
    exact tenacityLoopAux_fatal _ 0 4 _ rfl hr
  · decide
  · intro e
    exact (retryLoopAux_all_fail (fun _ => .error e)
      (fun _ => ⟨e, rfl⟩) MAX_RETRIES 0).2

/-- C1, witness: the tenacity executor stops after one attempt on a
constant-404 endpoint, and `should_retry_openai` rejects 404. -/
theorem retry_classification_c1_witness :
    send_openai_request_with_tenacity
      (fun _ => .error (.apiStatusError 404)) =
      ⟨.error (.apiStatusError 404), 1, 0⟩ ∧
    (should_retry_openai (.apiStatusError 404) = true ↔
      (.apiStatusError 404 : OpenaiError) = .rateLimitError ∨
      (.apiStatusError 404 : OpenaiError) = .apiTimeoutError ∨
      ∃ s, 500 ≤ s ∧ (.apiStatusError 404 : OpenaiError) = .apiStatusError s) :=
  ⟨retry_classification_c1.2.2.1 404 (by norm_num) (by norm_num) (by norm_num),
   retry_classification_c1.1 (.apiStatusError 404)⟩

/-- C4, counterexample: the claim that the actual awaited delay always
lies within `[delay, delay + jitter_max]` — jitter a non-negative addition
— is false: the code draws `jitter = random.uniform(-1, 1)`, so on
attempt 0 with jitter −1 the awaited delay is 0, strictly below the
pre-jitter delay 1. -/
theorem backoff_growth_c4_counterexample :
    ¬ (∀ (n : Nat) (j : ℚ), -1 ≤ j → j ≤ 1 →
        (wait_time n : ℚ) ≤ actual_wait n j) := by
  intro h
  have h0 := h 0 (-1) (by norm_num) (by norm_num)
  norm_num [wait_time, actual_wait, INITIAL_BACKOFF_S, MAX_BACKOFF_S] at h0

/-- C4, amended: the pre-jitter delay before attempt `n+1` equals
`min(max_backoff, initial_backoff * 2^n)` — the sequence 1, 2, 4, 8, 16,
capped at 16 from attempt index 4 on — and with jitter drawn uniformly
from [−1, 1] the actual awaited delay `max(0, delay + jitter)` lies within
`[max(0, delay − 1), delay + 1]`: the jitter may also shrink the delay by
up to one second (clamped at zero), not only extend it. -/
theorem backoff_growth_c4 :
    ((List.range 5).map wait_time = [1, 2, 4, 8, 16])
  ∧ (∀ n, 4 ≤ n → wait_time n = 16)
  ∧ (∀ (n : Nat) (j : ℚ), -1 ≤ j → j ≤ 1 →
      max 0 ((wait_time n : ℚ) - 1) ≤ actual_wait n j ∧
      actual_wait n j ≤ (wait_time n : ℚ) + 1) := by
  refine ⟨by decide, ?_, ?_⟩
  · intro n hn
    have h16 : (16 : Nat) ≤ 2 ^ n :=
      le_trans (by norm_num) (Nat.pow_le_pow_right (by norm_num) hn)
    simp [wait_time, INITIAL_BACKOFF_S, MAX_BACKOFF_S]
    omega
  · intro n j hj1 hj2
    constructor
    · exact max_le_max (le_refl 0) (by linarith)
    · apply max_le
      · positivity
      · linarith

/-- C4, witness: attempt 0 with jitter −1/2 stays within the corrected
interval, and the cap holds at attempt index 5. -/
theorem backoff_growth_c4_witness :
    wait_time 5 = 16 ∧
    (max 0 ((wait_time 0 : ℚ) - 1) ≤ actual_wait 0 (-1/2) ∧
     actual_wait 0 (-1/2) ≤ (wait_time 0 : ℚ) + 1) :=
  ⟨backoff_growth_c4.2.1 5 (by norm_num),
   backoff_growth_c4.2.2 0 (-1/2) (by norm_num) (by norm_num)⟩

/-- C8, code-bug evidence: in the SDK tenacity variant the key is fetched
once — in `run_openai_request_wrapper`, before the first attempt — and the
tenacity-decorated function never refetches, so on a 429-then-200 endpoint
attempt 2 runs with 2 attempts but only 1 fetch, contradicting the code's
own comment ("Refresh API key before each attempt (handled by tenacity
wrapper below)") and the spec; the manual-backoff executor does fetch a
key before every attempt (fetches = attempts for every endpoint). -/
theorem per_attempt_fetch_c8 :
    ((run_openai_request_wrapper ep429then200).attempts = 2 ∧
     (run_openai_request_wrapper ep429then200).fetches = 1)
  ∧ (∀ ep, (send_openai_request_with_retry ep).fetches =
        (send_openai_request_with_retry ep).attempts) := by
  refine ⟨by decide, ?_⟩
  intro ep
  have := retryLoopAux_fetches_zero ep 4
  norm_num at this
  simp only [send_openai_request_with_retry, MAX_RETRIES]
  omega

/-- C9, counterexample: the claim that the terminal failure outcome
carries the last error seen is false for the backoff executors: after the
budget is exhausted they `return None`, and `None` is the same for every
error history — no decoding of the outcome can recover the last error. -/
theorem exhausted_outcome_c9_counterexample :
    ¬ ∃ decode : Option String → OpenaiError,
        ∀ e : OpenaiError,
          decode (send_openai_request_with_retry
            (fun _ => .error e)).result = e := by
  rintro ⟨decode, h⟩
  have h1 := h .rateLimitError
  have h2 := h .apiTimeoutError
  have hr : ∀ e : OpenaiError, (send_openai_request_with_retry
      (fun _ => .error e)).result = none := fun e =>
    (retryLoopAux_all_fail (fun _ => .error e) (fun _ => ⟨e, rfl⟩)
      MAX_RETRIES 0).1
  rw [hr] at h1 h2
  exact absurd (h1.symm.trans h2) (by decide)

/-- C9, amended: when every attempt fails, the backoff executor makes
exactly `MAX_RETRIES = 5` attempts and returns `None` — a terminal failure
marker that does not carry the last error (the error is only printed); the
tenacity executor, in contrast, reraises the last error after its
`MAX_ATTEMPTS = 5` attempts (`reraise=True`). -/
theorem exhausted_outcome_c9 :
    (∀ ep : Nat → Except OpenaiError String, (∀ n, ∃ e, ep n = .error e) →
        (send_openai_request_with_retry ep).result = none ∧
        (send_openai_request_with_retry ep).attempts = MAX_RETRIES)
  ∧ (∀ e, should_retry_openai e = true →
        send_openai_request_with_tenacity (fun _ => .error e) =
          ⟨.error e, MAX_ATTEMPTS, MAX_ATTEMPTS - 1⟩) := by
  constructor
  · intro ep hep
    have := retryLoopAux_all_fail ep hep MAX_RETRIES 0
    exact ⟨this.1, by simp [send_openai_request_with_retry, this.2]⟩
  · intro e he
    exact tenacityLoopAux_const_retryable e he 4 0

/-- C9, witness: a constant-429 endpoint exhausts both executors — the
backoff one returns `None` after 5 attempts, the tenacity one reraises the
last 429. -/
theorem exhausted_outcome_c9_witness :
    ((send_openai_request_with_retry
        (fun _ => .error .rateLimitError)).result = none ∧
     (send_openai_request_with_retry
        (fun _ => .error .rateLimitError)).attempts = MAX_RETRIES) ∧
    send_openai_request_with_tenacity (fun _ => .error .rateLimitError) =
      ⟨.error .rateLimitError, MAX_ATTEMPTS, MAX_ATTEMPTS - 1⟩ :=
  ⟨exhausted_outcome_c9.1 _ (fun _ => ⟨.rateLimitError, rfl⟩),
   exhausted_outcome_c9.2 .rateLimitError rfl⟩

/-- C6, counterexample: the claim that the batch runner surfaces an
aggregate error (non-zero exit) whenever the successful count is below the
task count fails for `main` of `requests_concurrent_normal_backoff.py`:
it computes and prints the counts but never raises, returning normally
even for a batch whose single task failed. -/
theorem aggregate_error_c6_counterexample :
    ¬ (∀ results : List (Option Unit),
        successfulCount results < results.length →
        ∃ msg, mainAggregateRequests results = .error msg) := by
  intro h
  obtain ⟨msg, hmsg⟩ := h [none] (by decide)
  exact absurd hmsg (by simp [mainAggregateRequests])

/-- C6, amended: both cited runners compute the successful-outcome count;
the SDK backoff runner raises the aggregate error exactly when that count
is strictly below the task count and raises nothing when all tasks
succeeded, while the requests backoff runner only reports the counts and
never raises. -/
theorem aggregate_error_c6 {α : Type} (results : List (Option α)) :
    (mainAggregateSdk results = .error "Failed to complete all requests." ↔
      successfulCount results < results.length)
  ∧ ((∀ r ∈ results, r.isSome = true) → mainAggregateSdk results = .ok ())
  ∧ mainAggregateRequests results = .ok () := by
  have hle : successfulCount results ≤ results.length :=
    List.length_filter_le _ results
  refine ⟨?_, ?_, rfl⟩
  · unfold mainAggregateSdk
    by_cases hc : successfulCount results = results.length
    · simp [hc]
    · simp [hc]
      omega
  · intro hall
    have : results.filter (fun r => r.isSome) = results :=
      List.filter_eq_self.mpr hall
    simp [mainAggregateSdk, successfulCount, this]

/-- C6, witness: a batch with one failure raises the aggregate error in
the SDK runner; an all-success batch does not; the requests runner never
raises. -/
theorem aggregate_error_c6_witness :
    mainAggregateSdk [some (), none] =
      .error "Failed to complete all requests." ∧
    mainAggregateSdk [some ()] = .ok () ∧
    mainAggregateRequests [(none : Option Unit)] = .ok () :=
  ⟨(aggregate_error_c6 [some (), none]).1.mpr (by decide),
   (aggregate_error_c6 [some ()]).2.1 (by decide),
   (aggregate_error_c6 [(none : Option Unit)]).2.2⟩

/-- C7: when the provider fails (returns no key), both `get_key_sync` and
`get_key_async` leave the manager untouched and keep serving the cached
key; the result is `None` — the failure surfacing to the caller — exactly
when no credential has ever been obtained. -/
theorem credential_fallback_c7 (d now : Nat) (s : KeyState) :
    ((get_key_sync none d now s).1 = s.apiKey ∧
     (get_key_sync none d now s).2 = s)
  ∧ ((get_key_async none d now s).1 = s.apiKey ∧
     (get_key_async none d now s).2 = s)
  ∧ ((get_key_sync none d now s).1 = none ↔ s.apiKey = none)
  ∧ ((get_key_async none d now s).1 = none ↔ s.apiKey = none) := by
  unfold get_key_sync get_key_async
  cases h : is_expired d now s
  · simp [h]
  · simp [h]

/-- C7, witness: with nothing ever cached a failing provider surfaces
`None`; with a cached key the key keeps being served. -/
theorem credential_fallback_c7_witness :
    (get_key_sync none 30 10 ⟨none, none⟩).1 = none ∧
    (get_key_sync none 30 100 ⟨some "k1", some 0⟩).1 = some "k1" :=
  ⟨(credential_fallback_c7 30 10 ⟨none, none⟩).2.2.1.mpr rfl,
   ((credential_fallback_c7 30 100 ⟨some "k1", some 0⟩).1.1).trans rfl⟩

/-- C8, witness: the backoff executor's per-attempt fetch accounting at a
concrete endpoint. -/
theorem per_attempt_fetch_c8_witness :
    (send_openai_request_with_retry
      (fun _ => .error .rateLimitError)).fetches =
    (send_openai_request_with_retry
      (fun _ => .error .rateLimitError)).attempts :=
  per_attempt_fetch_c8.2 _

/-- C10: a failed provider invocation leaves `_api_key` and
`_last_fetch_time` unchanged in both variants; a cached key is still
returned after the failure; and under any provider outcome the stored key
never transitions from `some` back to `none`. -/
theorem provider_failure_state_c10 (p : Option String) (d now : Nat)
    (s : KeyState) (k : String) :
    ((get_key_sync none d now s).2 = s)
  ∧ ((get_key_async none d now s).2 = s)
  ∧ (s.apiKey = some k → (get_key_sync none d now s).1 = some k ∧
        (get_key_async none d now s).1 = some k)
  ∧ (s.apiKey = some k →
        ∃ kk, (get_key_sync p d now s).2.apiKey = some kk) := by
  unfold get_key_sync get_key_async
  cases h : is_expired d now s
  · simp [h]
    intro hk
    exact ⟨k, hk⟩
  · cases p
    · simp [h]
      intro hk
      exact ⟨k, hk⟩
    · simp [h]

/-- C10, witness: with an expired cached key and a failing provider, the
state is unchanged and the stale key is still served. -/
theorem provider_failure_state_c10_witness :
    (get_key_sync none 30 100 ⟨some "k0", some 0⟩).2 =
      (⟨some "k0", some 0⟩ : KeyState) ∧
    (get_key_sync none 30 100 ⟨some "k0", some 0⟩).1 = some "k0" :=
  ⟨(provider_failure_state_c10 none 30 100 ⟨some "k0", some 0⟩ "k0").1,
   ((provider_failure_state_c10 none 30 100 ⟨some "k0", some 0⟩
      "k0").2.2.1 rfl).1⟩

/-- A slot already holding task `i`'s outcome keeps it: later completions
either write other slots or rewrite slot `i` with the same outcome. -/
theorem gatherStore_preserve {α : Type} (f : Nat → α) (i : Nat) :
    ∀ (σ : List Nat) (g : Nat → Option α), g i = some (f i) →
      gatherStore f σ g i = some (f i) := by
  intro σ
  induction σ with
  | nil => intro g hg; exact hg
  | cons j rest ih =>
    intro g hg
    apply ih
    by_cases hij : i = j
    · subst hij; simp
    · simp [hij, hg]

/-- Once task `i` completes, slot `i` holds its outcome. -/
theorem gatherStore_mem {α : Type} (f : Nat → α) (i : Nat) :
    ∀ (σ : List Nat) (g : Nat → Option α), i ∈ σ →
      gatherStore f σ g i = some (f i) := by
  intro σ
  induction σ with
  | nil => intro g hg; simp at hg
  | cons j rest ih =>
    intro g hi
    by_cases hrest : i ∈ rest
    · exact ih _ hrest
    · rcases List.mem_cons.mp hi with h | h
      · subst h
        show gatherStore f rest
          (fun j' => if j' = i then some (f i) else g j') i = some (f i)
        apply gatherStore_preserve
        show (if i = i then some (f i) else g i) = some (f i)
        simp
      · exact absurd h hrest

/-- C5: for every completion ordering `σ` of the `n` tasks — any
permutation of the task indices — the gather-based dispatch returns
exactly one outcome slot per input task, holding task `i`'s outcome at
index `i` of the output list. -/
theorem order_preservation_c5 {α : Type} (f : Nat → α) (n : Nat)
    (σ : List Nat) (hperm : σ.Perm (List.range n)) :
    run_batch f n σ = (List.range n).map (fun i => some (f i)) := by
  unfold run_batch
  apply List.map_congr_left
  intro i hi
  exact gatherStore_mem f i σ _ (hperm.mem_iff.mpr hi)

/-- C5, witness: three tasks completing in order 2, 0, 1 still produce the
outcome list in input order. -/
theorem order_preservation_c5_witness :
    run_batch (fun i => i) 3 [2, 0, 1] = [some 0, some 1, some 2] :=
  (order_preservation_c5 (fun i => i) 3 [2, 0, 1] (by decide)).trans
    (by decide)

/-- Every batch step conserves permits: tasks inside the guarded section
plus available permits stay constant. -/
theorem semInv_step {K : Nat} {s s2 : SemState} (h : SemStep s s2)
    (hinv : countRunning s.tasks + s.avail = K) :
    countRunning s2.tasks + s2.avail = K := by
  cases h with
  | acquire a l r w =>
    simp [countRunning, List.countP_append, List.countP_cons,
      isRunning] at hinv ⊢
    omega
  | progress a l r w =>
    simp [countRunning, List.countP_append, List.countP_cons,
      isRunning] at hinv ⊢
    omega
  | finish a l r w ok =>
    simp [countRunning, List.countP_append, List.countP_cons,
      isRunning] at hinv ⊢
    omega

/-- The permit-conservation invariant holds in every reachable state of a
batch that starts with `K` permits. -/
theorem semInv_reachable {K n : Nat} {s : SemState}
    (h : Relation.ReflTransGen SemStep (initSem K n) s) :
    countRunning s.tasks + s.avail = K := by
  induction h with
  | refl =>
    have h0 : countRunning (List.replicate n TaskPhase.pending) = 0 := by
      apply List.countP_eq_zero.mpr
      intro a ha
      rw [List.eq_of_mem_replicate ha]
      simp [isRunning]
    simp [initSem, h0]
  | tail _ hstep ih => exact semInv_step hstep ih

/-- C2: in every reachable state of a batch run under a semaphore of
capacity `K` — the `async with semaphore` wrapper of
`openai_sdk_concurrent_normal_backoff.py`'s `main` — at most `K` tasks are
inside the guarded request logic simultaneously, and since the permit is
returned on every exit path (success, failure or cancellation), the
available permits are back to `K` once every task is done. -/
theorem semaphore_bound_c2 (K n : Nat) (s : SemState)
    (h : Relation.ReflTransGen SemStep (initSem K n) s) :
    countRunning s.tasks ≤ K ∧ (AllTasksDone s.tasks → s.avail = K) := by
  have hinv := semInv_reachable h
  constructor
  · omega
  · intro hdone
    have h0 : countRunning s.tasks = 0 := by
      apply List.countP_eq_zero.mpr
      intro a ha
      have := hdone a ha
      cases a with
      | pending => simp [isDoneTask] at this
      | running w => simp [isDoneTask] at this
      | done ok => simp [isRunning]
    omega

/-- C2, witness: a concrete 2-task, capacity-2 batch — both tasks acquire,
overlap, and finish (one successfully, one not) — ends with both permits
back and never exceeded the bound. -/
theorem semaphore_bound_c2_witness :
    countRunning [TaskPhase.done false, TaskPhase.done true] ≤ 2 ∧
    (⟨2, [TaskPhase.done false, TaskPhase.done true]⟩ : SemState).avail = 2 := by
  have htrace : Relation.ReflTransGen SemStep (initSem 2 2)
      (⟨2, [TaskPhase.done false, TaskPhase.done true]⟩ : SemState) :=
    Relation.ReflTransGen.head (SemStep.acquire 1 [] [.pending] 1)
      (Relation.ReflTransGen.head (SemStep.acquire 0 [.running 1] [] 0)
        (Relation.ReflTransGen.head (SemStep.progress 0 [] [.running 0] 0)
          (Relation.ReflTransGen.head (SemStep.finish 0 [.running 0] [] 0 true)
            (Relation.ReflTransGen.head
              (SemStep.finish 1 [] [.done true] 0 false)
              Relation.ReflTransGen.refl))))
  have hc := semaphore_bound_c2 2 2 _ htrace
  refine ⟨hc.1, hc.2 ?_⟩
  unfold AllTasksDone
  decide

/-! ## Credential-cache invariants (C3) -/

theorem lockHolders_append (l r : List CallerPhase) (c : CallerPhase) :
    lockHolders (l ++ c :: r) =
      lockHolders l + lockHolders r + (if inLock c then 1 else 0) := by
  simp [lockHolders, List.countP_append, List.countP_cons]
  omega

theorem mem_append_cons {x c : CallerPhase} {l r : List CallerPhase} :
    x ∈ l ++ c :: r ↔ x ∈ l ∨ x = c ∨ x ∈ r := by
  simp [List.mem_append, List.mem_cons]

/-- Invariant of the de-duplication scenario: starting from an absent or
stale credential (`key0`/`lf0`, expired at time `now`) with provider
result `t`, the lock admits at most one caller to the critical region; the
cached fields either still hold their initial values with the provider
never invoked, or hold the refreshed `some t` with exactly one invocation;
every finished caller got the refreshed token `some t` — never the stale
initial key — and nobody finished before the single refresh. -/
structure CacheInv (t : String) (d now : Nat) (key0 : Option String)
    (lf0 : Option Nat) (n : Nat) (s : CacheState) : Prop where
  len : s.callers.length = n
  lockCount : lockHolders s.callers = if s.lockHeld then 1 else 0
  keyCalls : (s.apiKey = key0 ∧ s.lastFetchTime = lf0 ∧ s.providerCalls = 0)
           ∨ (s.apiKey = some t ∧ s.lastFetchTime = some now ∧
              s.providerCalls = 1)
  doneOk : ∀ r, CallerPhase.done r ∈ s.callers → r = some t
  finishOk : CallerPhase.finishing ∈ s.callers →
    s.apiKey = some t ∧ s.providerCalls = 1
  noneDone : s.providerCalls = 0 → ∀ r, CallerPhase.done r ∉ s.callers

theorem cacheInv_init (t : String) (d now : Nat) (key0 : Option String)
    (lf0 : Option Nat) (n : Nat) :
    CacheInv t d now key0 lf0 n (initCacheStale key0 lf0 n) := by
  unfold initCacheStale
  have h0 : lockHolders (List.replicate n CallerPhase.start) = 0 := by
    apply List.countP_eq_zero.mpr
    intro a ha
    rw [List.eq_of_mem_replicate ha]
    simp [inLock]
  refine ⟨?_, ?_, Or.inl ⟨rfl, rfl, rfl⟩, ?_, ?_, ?_⟩
  · dsimp only
    simp
  · dsimp only
    simp [h0]
  · intro r hr
    dsimp only at hr
    rw [List.mem_replicate] at hr
    exact absurd hr.2 (by simp)
  · intro hf
    dsimp only at hf
    rw [List.mem_replicate] at hf
    exact absurd hf.2 (by simp)
  · intro _ r hr
    dsimp only at hr
    rw [List.mem_replicate] at hr
    exact absurd hr.2 (by simp)

theorem cacheInv_step {t : String} {d now : Nat} {key0 : Option String}
    {lf0 : Option Nat} {n : Nat} {s s2 : CacheState}
    (h0 : is_expired d now ⟨key0, lf0⟩ = true)
    (h : CacheStep (some t) d now s s2)
    (hinv : CacheInv t d now key0 lf0 n s) :
    CacheInv t d now key0 lf0 n s2 := by
  obtain ⟨hlen, hlock, hkc, hdone, hfin, hnd⟩ := hinv
  cases h with
  | fastFresh key lf lock calls l r hx =>
    dsimp only at hlen hlock hkc hdone hfin hnd
    have hkey : key = some t ∧ lf = some now ∧ calls = 1 := by
      rcases hkc with ⟨h1, h2, h3⟩ | ⟨h1, h2, h3⟩
      · rw [h1, h2] at hx
        simp [h0] at hx
      · exact ⟨h1, h2, h3⟩
    refine ⟨?_, ?_, Or.inr ⟨hkey.1, hkey.2.1, hkey.2.2⟩, ?_, ?_, ?_⟩
    · dsimp only
      simpa using hlen
    · dsimp only
      rw [lockHolders_append] at hlock ⊢
      simp [inLock] at hlock ⊢
      omega
    · intro r0 hr0
      dsimp only at hr0
      rcases mem_append_cons.mp hr0 with hm | hm | hm
      · exact hdone r0 (mem_append_cons.mpr (Or.inl hm))
      · have : r0 = key := by simpa using hm
        rw [this]
        exact hkey.1
      · exact hdone r0 (mem_append_cons.mpr (Or.inr (Or.inr hm)))
    · intro hf
      dsimp only at hf ⊢
      rcases mem_append_cons.mp hf with hm | hm | hm
      · exact hfin (mem_append_cons.mpr (Or.inl hm))
      · simp at hm
      · exact hfin (mem_append_cons.mpr (Or.inr (Or.inr hm)))
    · intro hc0
      dsimp only at hc0
      exact absurd (hkey.2.2.symm.trans hc0) (by norm_num)
  | fastStale key lf lock calls l r hx =>
    dsimp only at hlen hlock hkc hdone hfin hnd
    refine ⟨?_, ?_, hkc, ?_, ?_, ?_⟩
    · dsimp only
      simpa using hlen
    · dsimp only
      rw [lockHolders_append] at hlock ⊢
      simp [inLock] at hlock ⊢
      omega
    · intro r0 hr0
      dsimp only at hr0
      rcases mem_append_cons.mp hr0 with hm | hm | hm
      · exact hdone r0 (mem_append_cons.mpr (Or.inl hm))
      · simp at hm
      · exact hdone r0 (mem_append_cons.mpr (Or.inr (Or.inr hm)))
    · intro hf
      dsimp only at hf ⊢
      rcases mem_append_cons.mp hf with hm | hm | hm
      · exact hfin (mem_append_cons.mpr (Or.inl hm))
      · simp at hm
      · exact hfin (mem_append_cons.mpr (Or.inr (Or.inr hm)))
    · intro hc0 r0 hr0
      dsimp only at hc0 hr0
      rcases mem_append_cons.mp hr0 with hm | hm | hm
      · exact hnd hc0 r0 (mem_append_cons.mpr (Or.inl hm))
      · simp at hm
      · exact hnd hc0 r0 (mem_append_cons.mpr (Or.inr (Or.inr hm)))
  | lockAcquire key lf calls l r =>
    dsimp only at hlen hlock hkc hdone hfin hnd
    refine ⟨?_, ?_, hkc, ?_, ?_, ?_⟩
    · dsimp only
      simpa using hlen
    · dsimp only
      rw [lockHolders_append] at hlock ⊢
      simp [inLock] at hlock ⊢
      omega
    · intro r0 hr0
      dsimp only at hr0
      rcases mem_append_cons.mp hr0 with hm | hm | hm
      · exact hdone r0 (mem_append_cons.mpr (Or.inl hm))
      · simp at hm
      · exact hdone r0 (mem_append_cons.mpr (Or.inr (Or.inr hm)))
    · intro hf
      dsimp only at hf ⊢
      rcases mem_append_cons.mp hf with hm | hm | hm
      · exact hfin (mem_append_cons.mpr (Or.inl hm))
      · simp at hm
      · exact hfin (mem_append_cons.mpr (Or.inr (Or.inr hm)))
    · intro hc0 r0 hr0
      dsimp only at hc0 hr0
      rcases mem_append_cons.mp hr0 with hm | hm | hm
      · exact hnd hc0 r0 (mem_append_cons.mpr (Or.inl hm))
      · simp at hm
      · exact hnd hc0 r0 (mem_append_cons.mpr (Or.inr (Or.inr hm)))
  | refresh key lf calls l r hx =>
    dsimp only at hlen hlock hkc hdone hfin hnd
    have hcalls : key = key0 ∧ lf = lf0 ∧ calls = 0 := by
      rcases hkc with ⟨h1, h2, h3⟩ | ⟨h1, h2, h3⟩
      · exact ⟨h1, h2, h3⟩
      · rw [h1, h2] at hx
        simp [is_expired] at hx
    refine ⟨?_, ?_, Or.inr ⟨rfl, rfl, by rw [hcalls.2.2]⟩, ?_,
      fun _ => ⟨rfl, by dsimp only; rw [hcalls.2.2]⟩, ?_⟩
    · dsimp only
      simpa using hlen
    · dsimp only
      rw [lockHolders_append] at hlock ⊢
      simp [inLock] at hlock ⊢
      omega
    · intro r0 hr0
      dsimp only at hr0
      rcases mem_append_cons.mp hr0 with hm | hm | hm
      · exact hdone r0 (mem_append_cons.mpr (Or.inl hm))
      · simp at hm
      · exact hdone r0 (mem_append_cons.mpr (Or.inr (Or.inr hm)))
    · intro hc0
      dsimp only at hc0
      omega
  | skipRefresh key lf calls l r hx =>
    dsimp only at hlen hlock hkc hdone hfin hnd
    have hkey : key = some t ∧ lf = some now ∧ calls = 1 := by
      rcases hkc with ⟨h1, h2, h3⟩ | ⟨h1, h2, h3⟩
      · rw [h1, h2] at hx
        simp [h0] at hx
      · exact ⟨h1, h2, h3⟩
    refine ⟨?_, ?_, hkc, ?_, fun _ => ⟨hkey.1, hkey.2.2⟩, ?_⟩
    · dsimp only
      simpa using hlen
    · dsimp only
      rw [lockHolders_append] at hlock ⊢
      simp [inLock] at hlock ⊢
      omega
    · intro r0 hr0
      dsimp only at hr0
      rcases mem_append_cons.mp hr0 with hm | hm | hm
      · exact hdone r0 (mem_append_cons.mpr (Or.inl hm))
      · simp at hm
      · exact hdone r0 (mem_append_cons.mpr (Or.inr (Or.inr hm)))
    · intro hc0
      dsimp only at hc0
      exact absurd (hkey.2.2.symm.trans hc0) (by norm_num)
  | release key lf calls l r =>
    dsimp only at hlen hlock hkc hdone hfin hnd
    have hkey : key = some t ∧ calls = 1 :=
      hfin (mem_append_cons.mpr (Or.inr (Or.inl rfl)))
    refine ⟨?_, ?_, hkc, ?_, ?_, ?_⟩
    · dsimp only
      simpa using hlen
    · dsimp only
      rw [lockHolders_append] at hlock ⊢
      simp [inLock] at hlock ⊢
      omega
    · intro r0 hr0
      dsimp only at hr0
      rcases mem_append_cons.mp hr0 with hm | hm | hm
      · exact hdone r0 (mem_append_cons.mpr (Or.inl hm))
      · have : r0 = key := by simpa using hm
        rw [this]
        exact hkey.1
      · exact hdone r0 (mem_append_cons.mpr (Or.inr (Or.inr hm)))
    · intro hf
      dsimp only at hf ⊢
      rcases mem_append_cons.mp hf with hm | hm | hm
      · exact hfin (mem_append_cons.mpr (Or.inl hm))
      · simp at hm
      · exact hfin (mem_append_cons.mpr (Or.inr (Or.inr hm)))
    · intro hc0
      dsimp only at hc0
      exact absurd (hkey.2.symm.trans hc0) (by norm_num)

theorem cacheInv_reachable {t : String} {d now : Nat} {key0 : Option String}
    {lf0 : Option Nat} {n : Nat} {s : CacheState}
    (h0 : is_expired d now ⟨key0, lf0⟩ = true)
    (h : Relation.ReflTransGen (CacheStep (some t) d now)
      (initCacheStale key0 lf0 n) s) :
    CacheInv t d now key0 lf0 n s := by
  induction h with
  | refl => exact cacheInv_init t d now key0 lf0 n
  | tail _ hstep ih => exact cacheInv_step h0 hstep ih

/-- Invariant of the fresh-credential scenario: while the cached key is
within its expiry window, no caller ever reaches the lock, the provider is
never invoked, and every finished caller got the cached key. -/
structure CacheInvF (k0 : String) (f0 : Nat) (s : CacheState) : Prop where
  key : s.apiKey = some k0
  lf : s.lastFetchTime = some f0
  calls : s.providerCalls = 0
  lockFree : s.lockHeld = false
  phases : ∀ c ∈ s.callers,
    c = CallerPhase.start ∨ c = CallerPhase.done (some k0)

theorem cacheInvF_step {k0 : String} {f0 d now : Nat} {p : Option String}
    {s s2 : CacheState} (hfresh : ¬ (f0 + d < now))
    (h : CacheStep p d now s s2) (hinv : CacheInvF k0 f0 s) :
    CacheInvF k0 f0 s2 := by
  obtain ⟨hkey, hlf, hcalls, hlock, hph⟩ := hinv
  cases h with
  | fastFresh key lf lock calls l r hx =>
    dsimp only at hkey hlf hcalls hlock hph
    refine ⟨hkey, hlf, hcalls, hlock, ?_⟩
    intro c hc
    dsimp only at hc
    rcases mem_append_cons.mp hc with hm | hm | hm
    · exact hph c (mem_append_cons.mpr (Or.inl hm))
    · right
      rw [hm, hkey]
    · exact hph c (mem_append_cons.mpr (Or.inr (Or.inr hm)))
  | fastStale key lf lock calls l r hx =>
    dsimp only at hkey hlf
    rw [hkey, hlf] at hx
    simp [is_expired] at hx
    exact absurd hx hfresh
  | lockAcquire key lf calls l r =>
    have := hph CallerPhase.waiting (mem_append_cons.mpr (Or.inr (Or.inl rfl)))
    simp at this
  | refresh key lf calls l r hx =>
    have := hph CallerPhase.critical (mem_append_cons.mpr (Or.inr (Or.inl rfl)))
    simp at this
  | skipRefresh key lf calls l r hx =>
    have := hph CallerPhase.critical (mem_append_cons.mpr (Or.inr (Or.inl rfl)))
    simp at this
  | release key lf calls l r =>
    have := hph CallerPhase.finishing (mem_append_cons.mpr (Or.inr (Or.inl rfl)))
    simp at this

theorem cacheInvF_reachable {k0 : String} {f0 d now n : Nat}
    {p : Option String} {s : CacheState} (hfresh : ¬ (f0 + d < now))
    (h : Relation.ReflTransGen (CacheStep p d now)
      (initCacheCached k0 f0 n) s) :
    CacheInvF k0 f0 s := by
  induction h with
  | refl =>
    refine ⟨rfl, rfl, rfl, rfl, ?_⟩
    intro c hc
    dsimp only [initCacheCached] at hc
    rw [List.mem_replicate] at hc
    exact Or.inl hc.2
  | tail _ hstep ih => exact cacheInvF_step hfresh hstep ih

/-- C3: (1) when the cached credential is absent or older than the expiry
window and any positive number of callers concurrently run
`get_key_async`, every interleaving that finishes all callers performs
exactly one provider invocation, replaces the cached credential by the
provider's token, and every caller receives that same refreshed token —
never the stale initial key; (2) while the cached credential is within its
expiry window, the provider is never invoked and every finished caller
receives the cached key. -/
theorem credential_dedup_c3 :
    (∀ (n : Nat) (t : String) (d now : Nat) (key0 : Option String)
        (lf0 : Option Nat) (s : CacheState),
        0 < n →
        is_expired d now ⟨key0, lf0⟩ = true →
        Relation.ReflTransGen (CacheStep (some t) d now)
          (initCacheStale key0 lf0 n) s →
        AllCallersDone s →
        s.providerCalls = 1 ∧ s.apiKey = some t ∧
          ∀ r, CallerPhase.done r ∈ s.callers → r = some t)
  ∧ (∀ (n : Nat) (k0 : String) (f0 d now : Nat) (p : Option String)
        (s : CacheState),
        ¬ (f0 + d < now) →
        Relation.ReflTransGen (CacheStep p d now)
          (initCacheCached k0 f0 n) s →
        s.providerCalls = 0 ∧ s.apiKey = some k0 ∧
          ∀ r, CallerPhase.done r ∈ s.callers → r = some k0) := by
  constructor
  · intro n t d now key0 lf0 s hn h0 htrace hdone
    have inv := cacheInv_reachable h0 htrace
    rcases inv.keyCalls with ⟨_, _, hc⟩ | ⟨hk, _, hc⟩
    · exfalso
      obtain ⟨c, hcmem⟩ :=
        List.exists_mem_of_length_pos (by rw [inv.len]; exact hn)
      have hd := hdone c hcmem
      cases c with
      | start => simp [isDoneCaller] at hd
      | waiting => simp [isDoneCaller] at hd
      | critical => simp [isDoneCaller] at hd
      | finishing => simp [isDoneCaller] at hd
      | done r => exact absurd hcmem (inv.noneDone hc r)
    · exact ⟨hc, hk, inv.doneOk⟩
  · intro n k0 f0 d now p s hfresh htrace
    have inv := cacheInvF_reachable hfresh htrace
    refine ⟨inv.calls, inv.key, ?_⟩
    intro r hr
    rcases inv.phases _ hr with hc | hc
    · simp at hc
    · simpa using hc

/-- C3, witness: one caller against a stale cached credential ("old",
fetched at 0, expiry 5, now 10) walks stale-check, lock, refresh and
release, finishing with the provider's fresh token — not the stale one —
after exactly one invocation; and with a fresh cached credential the
initial state already satisfies the never-invoked conclusion. -/
theorem credential_dedup_c3_witness :
    ((⟨some "tok", some 10, false, 1,
        [CallerPhase.done (some "tok")]⟩ : CacheState).providerCalls = 1 ∧
     (⟨some "tok", some 10, false, 1,
        [CallerPhase.done (some "tok")]⟩ : CacheState).apiKey = some "tok") ∧
    (initCacheCached "k0" 0 1).providerCalls = 0 := by
  constructor
  · have htrace : Relation.ReflTransGen (CacheStep (some "tok") 5 10)
        (initCacheStale (some "old") (some 0) 1)
        (⟨some "tok", some 10, false, 1,
          [CallerPhase.done (some "tok")]⟩ : CacheState) :=
      Relation.ReflTransGen.head
        (CacheStep.fastStale (some "old") (some 0) false 0 [] [] rfl)
        (Relation.ReflTransGen.head
          (CacheStep.lockAcquire (some "old") (some 0) 0 [] [])
          (Relation.ReflTransGen.head
            (CacheStep.refresh (some "old") (some 0) 0 [] [] rfl)
            (Relation.ReflTransGen.head
              (CacheStep.release (some "tok") (some 10) 1 [] [])
              Relation.ReflTransGen.refl)))
    have hc := credential_dedup_c3.1 1 "tok" 5 10 (some "old") (some 0) _
      Nat.one_pos rfl htrace (by unfold AllCallersDone; decide)
    exact ⟨hc.1, hc.2.1⟩
  · exact (credential_dedup_c3.2 1 "k0" 0 5 0 none _ (by omega)
      Relation.ReflTransGen.refl).1

end OpenaiExamples
